import Mathlib

/-!
Verification of the docx2md converter core against its specification.

The definitions below are shallow embeddings of the Rust sources:
  * `src/converter/context.rs`   - reference registry (footnotes, endnotes, comments)
  * `src/converter/mod.rs`       - strict-mode validation step of `convert_inner`
  * `src/converter/styles.rs`    - style-chain collection loop
  * `src/converter/numbering.rs` - list numbering state machine
  * `src/converter/table_grid.rs`- table grid construction and rendering
  * `src/converter/paragraph.rs` - formatted segments and markdown rendering

Rust `HashMap`s are embedded as functions into `Option`, `Vec` as `List`,
machine integers (`i32`, `isize`) as `Int` with explicit saturation / cast
modelling where the code relies on it, and `usize` as `Nat` (with the
`i32 as usize` sign-extending cast made explicit where it occurs).
-/

namespace Docx2Md

/-! ### Reference registry (src/converter/context.rs)

The registry-owned fields of `ConversionContext`.  The text maps
(`footnote_text_by_id` etc.) are built once from the parsed note/comment
containers in `ConversionContext::new`; the index maps, ordered definition
lists and the missing-reference diagnostics start empty. -/

structure ConversionContext where
  footnotes : List String
  footnote_index_by_id : Int → Option Nat
  footnote_text_by_id : Int → Option String
  endnotes : List String
  endnote_index_by_id : Int → Option Nat
  endnote_text_by_id : Int → Option String
  comments : List (String × String)
  seen_comment_ids : String → Bool
  comment_text_by_id : String → Option String
  missing_references : List String

/-- A context as produced by `ConversionContext::new` when the document has no
note/comment containers: all maps empty, all lists empty. -/
def emptyContext : ConversionContext where
  footnotes := []
  footnote_index_by_id := fun _ => none
  footnote_text_by_id := fun _ => none
  endnotes := []
  endnote_index_by_id := fun _ => none
  endnote_text_by_id := fun _ => none
  comments := []
  seen_comment_ids := fun _ => false
  comment_text_by_id := fun _ => none
  missing_references := []

/-- Embeds `ConversionContext::register_footnote_reference`.  Returns the
marker string together with the updated context. -/
def register_footnote_reference (ctx : ConversionContext) (id : Int) :
    String × ConversionContext :=
  match ctx.footnote_index_by_id id with
  | some idx => (s!"[^{idx}]", ctx)
  | none =>
    let pair : String × List String :=
      match ctx.footnote_text_by_id id with
      | some t => (t, ctx.missing_references)
      | none => ("", ctx.missing_references ++ [s!"footnote:{id}"])
    let footnotes := ctx.footnotes ++ [pair.1]
    let idx := footnotes.length
    (s!"[^{idx}]",
      { ctx with
          footnotes := footnotes
          footnote_index_by_id := Function.update ctx.footnote_index_by_id id (some idx)
          missing_references := pair.2 })

/-- Embeds `ConversionContext::register_endnote_reference`. -/
def register_endnote_reference (ctx : ConversionContext) (id : Int) :
    String × ConversionContext :=
  match ctx.endnote_index_by_id id with
  | some idx => (s!"[^en{idx}]", ctx)
  | none =>
    let pair : String × List String :=
      match ctx.endnote_text_by_id id with
      | some t => (t, ctx.missing_references)
      | none => ("", ctx.missing_references ++ [s!"endnote:{id}"])
    let endnotes := ctx.endnotes ++ [pair.1]
    let idx := endnotes.length
    (s!"[^en{idx}]",
      { ctx with
          endnotes := endnotes
          endnote_index_by_id := Function.update ctx.endnote_index_by_id id (some idx)
          missing_references := pair.2 })

/-- Embeds `ConversionContext::register_comment_reference`. -/
def register_comment_reference (ctx : ConversionContext) (id : String) :
    String × ConversionContext :=
  if ctx.seen_comment_ids id then
    (s!"[^c{id}]", ctx)
  else
    let pair : String × List String :=
      match ctx.comment_text_by_id id with
      | some t => (t, ctx.missing_references)
      | none => ("", ctx.missing_references ++ [s!"comment:{id}"])
    (s!"[^c{id}]",
      { ctx with
          comments := ctx.comments ++ [(id, pair.1)]
          seen_comment_ids := Function.update ctx.seen_comment_ids id true
          missing_references := pair.2 })

/-- The error constructor relevant to reference validation
(`Error::MissingReference` in src/error.rs). -/
inductive ConvError where
  | MissingReference (msg : String)
deriving Repr, DecidableEq

/-- Embeds the tail of `DocxToMarkdown::convert_inner` (src/converter/mod.rs,
after block extraction): the reference definitions are collected, and when
`strict_reference_validation` is enabled a non-empty missing-reference list
aborts the conversion with `Error::MissingReference` over the comma-joined
diagnostics. -/
def finish_conversion (strict : Bool) (ctx : ConversionContext) :
    Except ConvError (List String × List String × List (String × String)) :=
  if strict ∧ ctx.missing_references ≠ [] then
    Except.error (ConvError.MissingReference (String.intercalate ", " ctx.missing_references))
  else
    Except.ok (ctx.footnotes, ctx.endnotes, ctx.comments)

/-- Claim C5: for every kind (footnote, endnote, comment) and identifier not
yet registered, registering twice in a row returns the same marker both times
and grows the kind's ordered definition list by exactly one entry, not two. -/
theorem registration_idempotent (ctx : ConversionContext) (fid eid : Int) (cid : String)
    (hf : ctx.footnote_index_by_id fid = none)
    (he : ctx.endnote_index_by_id eid = none)
    (hc : ctx.seen_comment_ids cid = false) :
    ((register_footnote_reference (register_footnote_reference ctx fid).2 fid).1 =
        (register_footnote_reference ctx fid).1 ∧
      (register_footnote_reference (register_footnote_reference ctx fid).2 fid).2.footnotes.length =
        ctx.footnotes.length + 1) ∧
    ((register_endnote_reference (register_endnote_reference ctx eid).2 eid).1 =
        (register_endnote_reference ctx eid).1 ∧
      (register_endnote_reference (register_endnote_reference ctx eid).2 eid).2.endnotes.length =
        ctx.endnotes.length + 1) ∧
    ((register_comment_reference (register_comment_reference ctx cid).2 cid).1 =
        (register_comment_reference ctx cid).1 ∧
      (register_comment_reference (register_comment_reference ctx cid).2 cid).2.comments.length =
        ctx.comments.length + 1) := by
  refine ⟨?_, ?_, ?_⟩
  · cases h : ctx.footnote_text_by_id fid <;>
      simp [register_footnote_reference, hf, h, Function.update_same]
  · cases h : ctx.endnote_text_by_id eid <;>
      simp [register_endnote_reference, he, h, Function.update_same]
  · cases h : ctx.comment_text_by_id cid <;>
      simp [register_comment_reference, hc, h, Function.update_same]

/-- Concrete instantiation of `registration_idempotent` on the empty context. -/
theorem registration_idempotent_witness :
    emptyContext.footnote_index_by_id 1 = none ∧
    emptyContext.endnote_index_by_id 2 = none ∧
    emptyContext.seen_comment_ids "3" = false ∧
    ((register_footnote_reference (register_footnote_reference emptyContext 1).2 1).1 =
        (register_footnote_reference emptyContext 1).1 ∧
      (register_footnote_reference
          (register_footnote_reference emptyContext 1).2 1).2.footnotes.length =
        emptyContext.footnotes.length + 1) :=
  ⟨rfl, rfl, rfl, (registration_idempotent emptyContext 1 2 "3" rfl rfl rfl).1⟩

/-- Claim C6: a conversion that registered a reference to footnote id 999
against a document with no footnote definitions fails under
`strict_reference_validation` with a `MissingReference` error naming
`footnote:999`, and succeeds without strict mode, having substituted an empty
body for that footnote's definition. -/
theorem strict_mode_missing_footnote :
    finish_conversion true (register_footnote_reference emptyContext 999).2 =
      Except.error (ConvError.MissingReference "footnote:999") ∧
    finish_conversion false (register_footnote_reference emptyContext 999).2 =
      Except.ok ([""], [], []) := by
  constructor <;> rfl

/-! ### Style resolver (src/converter/styles.rs)

`apply_style_chain_char` and `apply_style_chain_para` share one chain
collection loop:

    let mut chain = Vec::new();
    let mut current_id = Some(style_id);
    while let Some(id) = current_id {
        if let Some(style) = self.style_map.get(id) {
            chain.push(style);
            current_id = style.base.as_ref().map(|b| b.value.as_ref());
        } else { break; }
    }

The loop carries no visited-name set.  We embed it with a fuel parameter:
`collect_chain_fuel m fuel cur chain = some c` exactly when the loop, started
at `cur` with accumulator `chain`, exits within `fuel` iterations with final
chain `c`; `none` means the loop is still running after `fuel` iterations.
The Rust loop diverges on an input iff the embedding returns `none` for every
fuel. -/

structure Style where
  style_id : String
  base : Option String
deriving Repr, DecidableEq

def collect_chain_fuel (style_map : String → Option Style) :
    Nat → Option String → List Style → Option (List Style)
  | 0, _, _ => none
  | _ + 1, none, chain => some chain
  | fuel + 1, some id, chain =>
    match style_map id with
    | some style => collect_chain_fuel style_map fuel style.base (chain ++ [style])
    | none => some chain

/-- A two-style table whose `base` pointers form a cycle: style `A` is based
on `B` and `B` is based on `A` (the spec's cyclic-style-table scenario). -/
def cyclic_style_map : String → Option Style := fun id =>
  if id = "A" then some ⟨"A", some "B"⟩
  else if id = "B" then some ⟨"B", some "A"⟩
  else none

/-- Claim C1: the chain-collection loop of `apply_style_chain_char` /
`apply_style_chain_para` never terminates on the cyclic style table
`A -> B -> A`, whatever iteration bound is allowed and whatever chain has been
accumulated: the code tracks no visited names, contradicting the spec's
termination invariant.  (Evidence for the code-bug verdict: the claim's
required behaviour - stop after revisiting a name - is violated.) -/
theorem style_chain_diverges_on_cycle :
    ∀ (fuel : Nat) (chain : List Style),
      collect_chain_fuel cyclic_style_map fuel (some "A") chain = none ∧
      collect_chain_fuel cyclic_style_map fuel (some "B") chain = none := by
  intro fuel
  induction fuel with
  | zero => intro chain; exact ⟨rfl, rfl⟩
  | succ n ih =>
    intro chain
    constructor
    · have h : collect_chain_fuel cyclic_style_map (n + 1) (some "A") chain =
          collect_chain_fuel cyclic_style_map n (some "B") (chain ++ [⟨"A", some "B"⟩]) := by
        simp [collect_chain_fuel, cyclic_style_map]
      rw [h]; exact (ih _).2
    · have h : collect_chain_fuel cyclic_style_map (n + 1) (some "B") chain =
          collect_chain_fuel cyclic_style_map n (some "A") (chain ++ [⟨"B", some "A"⟩]) := by
        simp [collect_chain_fuel, cyclic_style_map]
      rw [h]; exact (ih _).1

/-! ### Numbering engine (src/converter/numbering.rs)

`NumberingResolver` state: four lookup maps built once by `new`, plus the
mutable `counters` map keyed by abstract id.  All `i32` values are embedded
as `Int`; `Vec<i32>` as `List Int`. -/

structure LevelDef where
  ilvl : Int
  start : Int
  num_fmt : String
  lvl_text : Option String
deriving Repr, DecidableEq

structure NumberingResolver where
  num_instances : Int → Option Int
  abstract_nums : Int → Option (List LevelDef)
  overrides : Int × Int → Option Int
  counters : Int → Option (List Int)
  level_shifts : Int → Option Int

/-- The value of `x as usize` on a 64-bit target when `x` holds an `i32`
value: sign-extension followed by reinterpretation, i.e. reduction modulo
`2 ^ 64`. -/
def int_to_usize (x : Int) : Nat := (x % 2 ^ 64).toNat

/-- `i32::saturating_sub`: the difference clamped to the `i32` range. -/
def i32_saturating_sub (a b : Int) : Int :=
  max (-(2 ^ 31)) (min (2 ^ 31 - 1) (a - b))

/-- Embeds `NumberingResolver::get_indent`: starts from `ilvl`, applies the
inferred base-level shift with `i32::saturating_sub` when the instance is
bound and a shift exists, and finally performs the `indent as usize` cast. -/
def get_indent (r : NumberingResolver) (num_id ilvl : Int) : Nat :=
  let indent :=
    match r.num_instances num_id with
    | some abs_id =>
      match r.level_shifts abs_id with
      | some base_level => i32_saturating_sub ilvl base_level
      | none => ilvl
    | none => ilvl
  int_to_usize indent

/-- Embeds `NumberingResolver::to_roman`'s subtractive-pair table. -/
def roman_table : List (Nat × String) :=
  [(1000, "M"), (900, "CM"), (500, "D"), (400, "CD"), (100, "C"), (90, "XC"),
   (50, "L"), (40, "XL"), (10, "X"), (9, "IX"), (5, "V"), (4, "IV"), (1, "I")]

/-- The inner `while num >= v` loop of `to_roman`: appends `s` once per
subtraction and returns the leftover value.  The guard `1 ≤ v` is vacuous on
`roman_table` (all entries are positive) and only serves termination. -/
def roman_repeat (v : Nat) (s : String) (num : Nat) : String × Nat :=
  if _h : 1 ≤ v ∧ v ≤ num then
    let p := roman_repeat v s (num - v)
    (s ++ p.1, p.2)
  else ("", num)
termination_by num
decreasing_by omega

/-- The outer `for` loop of `to_roman` over the subtractive-pair table. -/
def roman_go (num : Nat) : List (Nat × String) → String
  | [] => ""
  | (v, s) :: rest =>
    let p := roman_repeat v s num
    p.1 ++ roman_go p.2 rest

/-- Embeds `NumberingResolver::to_roman`: non-positive input returns the raw
integer string, otherwise the subtractive-pair expansion. -/
def to_roman (num : Int) : String :=
  if num ≤ 0 then toString num else roman_go num.toNat roman_table

/-- Lowercases the Roman letters used by `to_roman` (the embedding of
`str::to_lowercase` restricted to its alphabet). -/
def lower_ascii (s : String) : String :=
  String.mk (s.data.map Char.toLower)

/-- Embeds `NumberingResolver::format_ganada`'s 14-symbol table lookup. -/
def format_ganada (val : Int) : String :=
  let chars := ['가', '나', '다', '라', '마', '바', '사', '아', '자', '차', '카', '타', '파', '하']
  if 1 ≤ val ∧ val.toNat ≤ chars.length then (chars.getD (val.toNat - 1) 'x').toString
  else toString val

/-- Embeds `NumberingResolver::format_geonodeo`. -/
def format_geonodeo (val : Int) : String :=
  let chars := ['거', '너', '더', '러', '머', '버', '서', '어', '저', '처', '커', '터', '퍼', '허']
  if 1 ≤ val ∧ val.toNat ≤ chars.length then (chars.getD (val.toNat - 1) 'x').toString
  else toString val

/-- Embeds `NumberingResolver::format_chosung`. -/
def format_chosung (val : Int) : String :=
  let chars := ['ㄱ', 'ㄴ', 'ㄷ', 'ㄹ', 'ㅁ', 'ㅂ', 'ㅅ', 'ㅇ', 'ㅈ', 'ㅊ', 'ㅋ', 'ㅌ', 'ㅍ', 'ㅎ']
  if 1 ≤ val ∧ val.toNat ≤ chars.length then (chars.getD (val.toNat - 1) 'x').toString
  else toString val

/-- Embeds `NumberingResolver::format_circle_number`: two contiguous Unicode
ranges covering 1-20 and 21-50, decimal fallback outside them. -/
def format_circle_number (val : Int) : String :=
  if 1 ≤ val ∧ val ≤ 20 then (Char.ofNat (0x245F + val.toNat)).toString
  else if 21 ≤ val ∧ val ≤ 50 then (Char.ofNat (0x3250 + (val.toNat - 20))).toString
  else toString val

/-- Embeds `NumberingResolver::format_num`'s dispatch on the format tag. -/
def format_num (fmt : String) (val : Int) : String :=
  if fmt = "bullet" ∨ fmt = "none" then "-"
  else if fmt = "decimal" then toString val
  else if fmt = "lowerLetter" then
    if 1 ≤ val ∧ val ≤ 26 then (Char.ofNat (97 + (val.toNat - 1))).toString else toString val
  else if fmt = "upperLetter" then
    if 1 ≤ val ∧ val ≤ 26 then (Char.ofNat (65 + (val.toNat - 1))).toString else toString val
  else if fmt = "lowerRoman" then lower_ascii (to_roman val)
  else if fmt = "upperRoman" then to_roman val
  else if fmt = "koreanCounting" ∨ fmt = "korean" ∨ fmt = "ganada" then format_ganada val
  else if fmt = "chosung" then format_chosung val
  else if fmt = "geonodeo" then format_geonodeo val
  else if fmt = "decimalEnclosedCircle" then format_circle_number val
  else toString val

/-- Replacement of every occurrence of a non-empty pattern, left to right and
non-overlapping, over character lists: the embedding of `str::replace` as
used on the `%k` placeholders (the caller's pattern is never empty; an empty
pattern is returned unchanged). -/
def replace_chars (pat repl : List Char) : List Char → List Char
  | [] => []
  | c :: rest =>
    match pat with
    | [] => c :: rest
    | _ :: ps =>
      if pat.isPrefixOf (c :: rest) then
        repl ++ replace_chars pat repl (rest.drop ps.length)
      else
        c :: replace_chars pat repl rest
termination_by l => l.length
decreasing_by
  · simpa using Nat.lt_succ_of_le (Nat.sub_le _ _)
  · simp

/-- Embeds the placeholder-substitution loop of `next_marker`: for each
counter index `i`, if the marker contains `%(i+1)`, look up the format of
level `i` (decimal when absent), display an unset counter as 1, and replace
every occurrence of the placeholder. -/
def subst_placeholders (levels : List LevelDef) (counters : List Int) (text : String) : String :=
  counters.enum.foldl
    (fun marker p =>
      let placeholder := "%" ++ toString (p.1 + 1)
      if marker.data.tails.any (fun t => placeholder.data.isPrefixOf t) then
        let fmt := ((levels.find? (fun (l : LevelDef) => l.ilvl == (p.1 : Int))).map
          (fun (l : LevelDef) => l.num_fmt)).getD "decimal"
        let val : Int := if p.2 == 0 then 1 else p.2
        String.mk (replace_chars placeholder.data (format_num fmt val).data marker.data)
      else marker)
    text

/-- The `if counters.len() <= ilvl_idx { counters.resize(ilvl_idx + 1, 0) }`
step of `next_marker`. -/
def pad_counters (idx : Nat) (c : List Int) : List Int :=
  if c.length ≤ idx then c ++ List.replicate (idx + 1 - c.length) 0 else c

/-- The update step of `next_marker`: a counter of 0 is initialised to the
(possibly overridden) start value, otherwise incremented by 1. -/
def bump_counter (idx : Nat) (init : Int) (c : List Int) : List Int :=
  if (c.getD idx 0 == 0) = true then c.set idx init else c.set idx (c.getD idx 0 + 1)

/-- The `for i in (ilvl_idx + 1)..counters.len() { counters[i] = 0 }` reset
loop of `next_marker`. -/
def reset_deeper (idx : Nat) (c : List Int) : List Int :=
  c.take (idx + 1) ++ List.replicate (c.length - (idx + 1)) 0

/-- Embeds `NumberingResolver::next_marker`.  Returns the marker together
with the updated resolver.  The `counters.entry(abs_id).or_insert(vec![0;10])`
insertion happens before the level-definition check, so it is reflected even
on the early `"-"` return for an empty level list. -/
def next_marker (r : NumberingResolver) (num_id ilvl : Int) : String × NumberingResolver :=
  match r.num_instances num_id with
  | none => ("-", r)
  | some abs_id =>
    match r.abstract_nums abs_id with
    | none => ("-", r)
    | some levels =>
      let counters0 := (r.counters abs_id).getD (List.replicate 10 0)
      match (levels.find? (fun l => l.ilvl == ilvl)).orElse (fun _ => levels.head?) with
      | none => ("-", { r with counters := Function.update r.counters abs_id (some counters0) })
      | some level =>
        let ilvl_idx := int_to_usize ilvl
        let counters1 := pad_counters ilvl_idx counters0
        let override_start := r.overrides (num_id, ilvl)
        let counters2 := bump_counter ilvl_idx (override_start.getD level.start) counters1
        let counters3 := reset_deeper ilvl_idx counters2
        let r' := { r with counters := Function.update r.counters abs_id (some counters3) }
        match level.lvl_text with
        | some text => (subst_placeholders levels counters3 text, r')
        | none =>
          let raw_num := format_num level.num_fmt (counters3.getD ilvl_idx 0)
          if level.num_fmt = "decimal" ∨ level.num_fmt = "lowerLetter" ∨
              level.num_fmt = "upperLetter" ∨ level.num_fmt = "lowerRoman" ∨
              level.num_fmt = "upperRoman" then
            (raw_num ++ ".", r')
          else (raw_num, r')

/-- Runs `next_marker` over a list of `(num_id, ilvl)` calls in document
order, collecting the produced markers. -/
def run_markers (r : NumberingResolver) : List (Int × Int) → List String × NumberingResolver
  | [] => ([], r)
  | c :: rest =>
    let p := next_marker r c.1 c.2
    let q := run_markers p.2 rest
    (p.1 :: q.1, q.2)

/-- A resolver with one list instance (id 1) bound to abstract list 100 whose
inferred base-level shift is 4 - the state `NumberingResolver::new` builds for
an abstract list whose level-4 template matches the section/article
heuristic. -/
def shifted_resolver : NumberingResolver where
  num_instances := fun n => if n = 1 then some 100 else none
  abstract_nums := fun a => if a = 100 then some [⟨4, 1, "decimal", some "제%5조"⟩] else none
  overrides := fun _ => none
  counters := fun _ => none
  level_shifts := fun a => if a = 100 then some 4 else none

/-- Claim C2 (refuting evaluation): with level index 1 and base-level shift 4,
`get_indent` returns `2 ^ 64 - 3`, not the claimed 0: `i32::saturating_sub`
saturates at `i32::MIN`, not at zero, so the negative difference `-3`
survives and the `as usize` cast sign-extends it to a huge value. -/
theorem get_indent_underflows :
    get_indent shifted_resolver 1 1 = 2 ^ 64 - 3 ∧
    get_indent shifted_resolver 1 1 ≠ 0 := by
  constructor <;> decide

/-- Claim C10: `next_marker` leaves `num_instances`, `abstract_nums`,
`overrides` and `level_shifts` unchanged, mutates the counters of no abstract
id other than the one `num_id` is bound to, and returns the fallback marker
`"-"` when `num_id` is unbound, when the bound abstract id has no level
table, and when the level table is empty. -/
theorem next_marker_state (r : NumberingResolver) (num_id ilvl : Int) :
    (next_marker r num_id ilvl).2 = r ∨
    ∃ abs_id v, r.num_instances num_id = some abs_id ∧
      (next_marker r num_id ilvl).2 =
        { r with counters := Function.update r.counters abs_id (some v) } := by
  cases hni : r.num_instances num_id with
  | none => left; simp [next_marker, hni]
  | some abs_id =>
    cases han : r.abstract_nums abs_id with
    | none => left; simp [next_marker, hni, han]
    | some levels =>
      cases hlv : (levels.find? (fun l => l.ilvl == ilvl)).orElse (fun _ => levels.head?) with
      | none =>
        right
        simp only [next_marker, hni, han, hlv]
        exact ⟨abs_id, _, rfl, rfl⟩
      | some level =>
        cases hlt : level.lvl_text with
        | some text =>
          right
          simp only [next_marker, hni, han, hlv, hlt]
          exact ⟨abs_id, _, rfl, rfl⟩
        | none =>
          right
          simp only [next_marker, hni, han, hlv, hlt, apply_ite Prod.snd, ite_self]
          exact ⟨abs_id, _, rfl, rfl⟩

/-- The four lookup maps of the resolver are untouched by `next_marker`. -/
theorem next_marker_preserves_maps (r : NumberingResolver) (num_id ilvl : Int) :
    (next_marker r num_id ilvl).2.num_instances = r.num_instances ∧
    (next_marker r num_id ilvl).2.abstract_nums = r.abstract_nums ∧
    (next_marker r num_id ilvl).2.overrides = r.overrides ∧
    (next_marker r num_id ilvl).2.level_shifts = r.level_shifts := by
  obtain h | ⟨abs_id, v, hbound, h⟩ := next_marker_state r num_id ilvl <;>
    rw [h] <;> exact ⟨rfl, rfl, rfl, rfl⟩

theorem next_marker_frame (r : NumberingResolver) (num_id ilvl : Int) :
    (next_marker r num_id ilvl).2.num_instances = r.num_instances ∧
    (next_marker r num_id ilvl).2.abstract_nums = r.abstract_nums ∧
    (next_marker r num_id ilvl).2.overrides = r.overrides ∧
    (next_marker r num_id ilvl).2.level_shifts = r.level_shifts ∧
    (∀ b : Int, r.num_instances num_id ≠ some b →
      (next_marker r num_id ilvl).2.counters b = r.counters b) ∧
    (r.num_instances num_id = none → next_marker r num_id ilvl = ("-", r)) ∧
    (∀ abs_id : Int, r.num_instances num_id = some abs_id →
      r.abstract_nums abs_id = none → (next_marker r num_id ilvl).1 = "-") ∧
    (∀ abs_id : Int, r.num_instances num_id = some abs_id →
      r.abstract_nums abs_id = some [] → (next_marker r num_id ilvl).1 = "-") := by
  refine ⟨(next_marker_preserves_maps r num_id ilvl).1,
    (next_marker_preserves_maps r num_id ilvl).2.1,
    (next_marker_preserves_maps r num_id ilvl).2.2.1,
    (next_marker_preserves_maps r num_id ilvl).2.2.2, ?_, ?_, ?_, ?_⟩
  case _ =>
    intro b hb
    obtain h | ⟨abs_id, v, hbound, h⟩ := next_marker_state r num_id ilvl <;> rw [h]
    have hne : b ≠ abs_id := by rintro rfl; exact hb hbound
    exact Function.update_noteq hne _ _
  case _ =>
    intro hnone
    simp [next_marker, hnone]
  case _ =>
    intro abs_id h1 h2
    simp [next_marker, h1, h2]
  case _ =>
    intro abs_id h1 h2
    simp [next_marker, h1, h2]

/-- Concrete instantiation of `next_marker_frame`: an unbound instance id
leaves the resolver untouched and yields the fallback marker. -/
theorem next_marker_frame_witness :
    (next_marker shifted_resolver 5 0).2.counters 100 = shifted_resolver.counters 100 ∧
    next_marker shifted_resolver 5 0 = ("-", shifted_resolver) := by
  have h := next_marker_frame shifted_resolver 5 0
  exact ⟨h.2.2.2.2.1 100 (by decide), h.2.2.2.2.2.1 (by decide)⟩

/-- The resolver state for two list instances `a` and `b` bound to the same
abstract list `A`, whose single level definition is level 0, start 1, decimal
format, no template - and no start overrides. -/
def two_instance_resolver (a b A : Int) : NumberingResolver where
  num_instances := fun n => if n = a ∨ n = b then some A else none
  abstract_nums := fun x => if x = A then some [⟨0, 1, "decimal", none⟩] else none
  overrides := fun _ => none
  counters := fun _ => none
  level_shifts := fun _ => none

/-- Invariant tying a resolver state to the shared level-0 counter value `j`
of abstract list `A`: the lookup maps are those of `two_instance_resolver`
and the effective counter vector of `A` (defaulting to `vec![0; 10]` exactly
as `counters.entry(abs).or_insert` does) is `j` followed by nine zeros. -/
def shared_counter_state (a b A j : Int) (st : NumberingResolver) : Prop :=
  st.num_instances = (two_instance_resolver a b A).num_instances ∧
  st.abstract_nums = (two_instance_resolver a b A).abstract_nums ∧
  st.overrides = (two_instance_resolver a b A).overrides ∧
  (st.counters A).getD (List.replicate 10 0) = j :: List.replicate 9 0

theorem next_marker_shared_step (a b A j : Int) (st : NumberingResolver) (i : Int)
    (hst : shared_counter_state a b A j st) (hi : i = a ∨ i = b) :
    (next_marker st i 0).1 = toString (j + 1) ++ "." ∧
    shared_counter_state a b A (j + 1) (next_marker st i 0).2 := by
  obtain ⟨h1, h2, h3, h4⟩ := hst
  have hni : st.num_instances i = some A := by
    rw [h1]; simp [two_instance_resolver, hi]
  have han : st.abstract_nums A = some [⟨0, 1, "decimal", none⟩] := by
    rw [h2]; simp [two_instance_resolver]
  have hidx : int_to_usize 0 = 0 := by decide
  have hcnt0 : (st.counters A).getD (List.replicate 10 0) = j :: List.replicate 9 0 := h4
  have hfind : (([⟨0, 1, "decimal", none⟩] : List LevelDef).find?
      (fun l => l.ilvl == (0 : Int))).orElse (fun _ => ([⟨0, 1, "decimal", none⟩] :
        List LevelDef).head?) = some ⟨0, 1, "decimal", none⟩ := by decide
  have hov : st.overrides (i, 0) = none := by rw [h3]; rfl
  have hset : (if j = 0 then (1 : Int) :: List.replicate 9 0
      else (j + 1) :: List.replicate 9 0) = (j + 1) :: List.replicate 9 0 := by
    by_cases hz : j = 0 <;> simp [hz]
  have hmain : next_marker st i 0 =
      (toString (j + 1) ++ ".",
        { st with counters :=
            (Function.update st.counters A (some ((j + 1) :: List.replicate 9 0))) }) := by
    simp only [next_marker, pad_counters, bump_counter, reset_deeper, hni, han, hcnt0, hfind,
      hidx, hov]
    norm_num
    rw [hset]
    simp [format_num]
  rw [hmain]
  refine ⟨rfl, h1, h2, h3, ?_⟩
  simp [Function.update_same]

theorem run_markers_shared (a b A : Int) :
    ∀ (ids : List Int) (j : Int) (st : NumberingResolver),
      (∀ i ∈ ids, i = a ∨ i = b) → shared_counter_state a b A j st →
      (run_markers st (ids.map (fun i => (i, 0)))).1 =
        (List.range ids.length).map (fun k : Nat => toString (j + 1 + (k : Int)) ++ ".") := by
  intro ids
  induction ids with
  | nil => intro j st _ _; simp [run_markers]
  | cons i ids ih =>
    intro j st hmem hst
    have hstep := next_marker_shared_step a b A j st i hst (hmem i (by simp))
    have htail := ih (j + 1) (next_marker st i 0).2
      (fun x hx => hmem x (by simp [hx])) hstep.2
    simp only [List.map_cons, run_markers]
    rw [hstep.1, htail, List.length_cons, List.range_succ_eq_map,
      List.map_cons, List.map_map]
    refine congrArg₂ List.cons (by norm_num) (List.map_congr_left (fun k _ => ?_))
    have harg : j + 1 + 1 + (k : Int) = j + 1 + ((k : Int) + 1) := by ring
    simp [Function.comp, harg]

/-- The ids of `n` alternating `next_marker` calls: `a, b, a, b, ...`. -/
def alt_ids (a b : Int) (n : Nat) : List Int :=
  (List.range n).map (fun k => if k % 2 = 0 then a else b)

/-- Claim C3: with two distinct instance ids `a` and `b` bound to the same
abstract list (default start 1, no overrides), `n` alternating `next_marker`
calls at level 0 yield the strictly increasing marker sequence
`1., 2., 3., ...` - the counter is keyed by the abstract id and never resets
when the instance id changes. -/
theorem counter_continuity (a b A : Int) (hab : a ≠ b) (n : Nat) :
    (run_markers (two_instance_resolver a b A)
        ((alt_ids a b n).map (fun i => (i, 0)))).1 =
      (List.range n).map (fun k : Nat => toString ((k : Int) + 1) ++ ".") := by
  clear hab
  have hmem : ∀ i ∈ alt_ids a b n, i = a ∨ i = b := by
    intro i hi
    simp only [alt_ids, List.mem_map, List.mem_range] at hi
    obtain ⟨k, _, hk⟩ := hi
    by_cases h : k % 2 = 0
    · left; rw [← hk, if_pos h]
    · right; rw [← hk, if_neg h]
  have hst : shared_counter_state a b A 0 (two_instance_resolver a b A) :=
    ⟨rfl, rfl, rfl, rfl⟩
  rw [run_markers_shared a b A (alt_ids a b n) 0 (two_instance_resolver a b A) hmem hst]
  have hlen : (alt_ids a b n).length = n := by simp [alt_ids]
  rw [hlen]
  refine List.map_congr_left (fun k _ => ?_)
  have harg : (0 : Int) + 1 + (k : Int) = (k : Int) + 1 := by ring
  rw [harg]

/-- Concrete instantiation of `counter_continuity`: ids 1 and 2 sharing
abstract list 100, three alternating calls produce `1.`, `2.`, `3.`. -/
theorem counter_continuity_witness :
    (run_markers (two_instance_resolver 1 2 100)
        ((alt_ids 1 2 3).map (fun i => (i, 0)))).1 = ["1.", "2.", "3."] := by
  rw [counter_continuity 1 2 100 (by decide) 3]
  decide

theorem reset_deeper_getD (idx m : Nat) (c : List Int) :
    (reset_deeper idx c).getD m 0 = if m < idx + 1 then c.getD m 0 else 0 := by
  unfold reset_deeper
  rw [List.getD_eq_getElem?_getD, List.getD_eq_getElem?_getD]
  by_cases h : m < idx + 1
  · rw [if_pos h]
    by_cases h2 : m < c.length
    · have hb : m < (List.take (idx + 1) c).length := by rw [List.length_take]; omega
      rw [List.getElem?_append_left hb, List.getElem?_take, if_pos h]
    · have hb : (List.take (idx + 1) c).length ≤ m := by rw [List.length_take]; omega
      have hc : getElem? c m = none := List.getElem?_eq_none (by omega)
      rw [List.getElem?_append_right hb, List.getElem?_replicate, hc,
        if_neg (by rw [List.length_take]; omega)]
  · rw [if_neg h]
    have hb : (List.take (idx + 1) c).length ≤ m := by rw [List.length_take]; omega
    rw [List.getElem?_append_right hb, List.getElem?_replicate]
    split <;> rfl

theorem pad_counters_length (idx : Nat) (c : List Int) :
    idx + 1 ≤ (pad_counters idx c).length := by
  unfold pad_counters
  split
  · simp only [List.length_append, List.length_replicate]
    omega
  · omega

theorem pad_counters_getD (idx : Nat) (c : List Int) :
    (pad_counters idx c).getD idx 0 = c.getD idx 0 := by
  unfold pad_counters
  split
  · next hlen =>
    have hb : c.length ≤ idx := hlen
    have hc : getElem? c idx = none := List.getElem?_eq_none (by omega)
    rw [List.getD_eq_getElem?_getD, List.getD_eq_getElem?_getD,
      List.getElem?_append_right hb, List.getElem?_replicate,
      if_pos (by omega), hc]
    rfl
  · rfl

theorem bump_counter_length (idx : Nat) (init : Int) (c : List Int) :
    (bump_counter idx init c).length = c.length := by
  unfold bump_counter
  split <;> rw [List.length_set]

theorem bump_counter_getD_init (idx : Nat) (init : Int) (c : List Int)
    (h : idx < c.length) (hz : c.getD idx 0 = 0) :
    (bump_counter idx init c).getD idx 0 = init := by
  unfold bump_counter
  rw [if_pos (by rw [hz]; rfl), List.getD_eq_getElem?_getD, List.getElem?_set_self h]
  rfl

/-- When the instance is bound, the level table exists and the level lookup
succeeds, the post-call counter vector of the bound abstract id is exactly
pad-then-bump-then-reset of the previous vector. -/
theorem next_marker_counters_eq (r : NumberingResolver) (num_id ilvl : Int) (abs_id : Int)
    (levels : List LevelDef) (lv : LevelDef)
    (hni : r.num_instances num_id = some abs_id)
    (han : r.abstract_nums abs_id = some levels)
    (hlv : (levels.find? (fun l => l.ilvl == ilvl)).orElse (fun _ => levels.head?) = some lv) :
    (next_marker r num_id ilvl).2.counters abs_id =
      some (reset_deeper (int_to_usize ilvl)
        (bump_counter (int_to_usize ilvl)
          ((r.overrides (num_id, ilvl)).getD lv.start)
          (pad_counters (int_to_usize ilvl)
            ((r.counters abs_id).getD (List.replicate 10 0))))) := by
  cases hlt : lv.lvl_text with
  | none =>
    simp only [next_marker, hni, han, hlv, hlt, apply_ite Prod.snd, ite_self]
    simp [Function.update_same]
  | some text =>
    simp only [next_marker, hni, han, hlv, hlt]
    simp [Function.update_same]

/-- Claim C4: a `next_marker` call at level `L` resets the level-`L+1`
counter of the bound abstract list to uninitialised (0), so the next call at
level `L+1` restarts from that level's (possibly overridden) start value
rather than continuing the old count. -/
theorem level_reset (r : NumberingResolver) (num_id : Int) (L : Nat) (hL : L + 1 < 2 ^ 31)
    (abs_id : Int) (levels : List LevelDef) (lv2 : LevelDef)
    (hni : r.num_instances num_id = some abs_id)
    (han : r.abstract_nums abs_id = some levels)
    (hne : levels ≠ [])
    (hlv2 : (levels.find? (fun l => l.ilvl == ((L : Int) + 1))).orElse
      (fun _ => levels.head?) = some lv2) :
    (((next_marker r num_id (L : Int)).2.counters abs_id).getD []).getD (L + 1) 0 = 0 ∧
    ((((next_marker (next_marker r num_id (L : Int)).2 num_id
          ((L : Int) + 1)).2.counters abs_id).getD []).getD (L + 1) 0) =
      (r.overrides (num_id, (L : Int) + 1)).getD lv2.start := by
  have hcast : ∀ k : Nat, k < 2 ^ 64 → int_to_usize (k : Int) = k := by
    intro k hk
    unfold int_to_usize
    rw [Int.emod_eq_of_lt (by positivity) (by exact_mod_cast hk)]
    exact Int.toNat_natCast k
  have hidx1 : int_to_usize (L : Int) = L := hcast L (by omega)
  have hidx2 : int_to_usize ((L : Int) + 1) = L + 1 := by
    have : ((L : Int) + 1) = ((L + 1 : Nat) : Int) := by push_cast; ring
    rw [this]
    exact hcast (L + 1) (by omega)
  obtain ⟨lv1, hlv1⟩ : ∃ lv1, (levels.find? (fun l => l.ilvl == (L : Int))).orElse
      (fun _ => levels.head?) = some lv1 := by
    cases hf : levels.find? (fun l => l.ilvl == (L : Int)) with
    | some x => exact ⟨x, by simp [Option.orElse, hf]⟩
    | none =>
      match levels, hne with
      | x :: xs, _ => exact ⟨x, by simp [Option.orElse, hf]⟩
  have h1 := next_marker_counters_eq r num_id (L : Int) abs_id levels lv1 hni han hlv1
  rw [hidx1] at h1
  have hfr := next_marker_preserves_maps r num_id (L : Int)
  have hni1 : (next_marker r num_id (L : Int)).2.num_instances num_id = some abs_id := by
    rw [hfr.1, hni]
  have han1 : (next_marker r num_id (L : Int)).2.abstract_nums abs_id = some levels := by
    rw [hfr.2.1, han]
  have hov1 : (next_marker r num_id (L : Int)).2.overrides = r.overrides := hfr.2.2.1
  have hpost1 : (((next_marker r num_id (L : Int)).2.counters abs_id).getD []).getD (L + 1) 0
      = 0 := by
    rw [h1]
    simp only [Option.getD_some]
    rw [reset_deeper_getD, if_neg (by omega)]
  refine ⟨hpost1, ?_⟩
  have h2 := next_marker_counters_eq (next_marker r num_id (L : Int)).2 num_id
    ((L : Int) + 1) abs_id levels lv2 hni1 han1 hlv2
  rw [hidx2] at h2
  rw [h2]
  simp only [Option.getD_some]
  set c0 := ((next_marker r num_id (L : Int)).2.counters abs_id).getD (List.replicate 10 0)
    with hc0def
  have hc0 : c0.getD (L + 1) 0 = 0 := by
    rw [hc0def, h1]
    simp only [Option.getD_some]
    rw [reset_deeper_getD, if_neg (by omega)]
  have hpadlen : L + 1 + 1 ≤ (pad_counters (L + 1) c0).length := pad_counters_length _ _
  have hpadget : (pad_counters (L + 1) c0).getD (L + 1) 0 = 0 := by
    rw [pad_counters_getD, hc0]
  rw [reset_deeper_getD, if_pos (by omega), hov1,
    bump_counter_getD_init (L + 1) _ _ (by omega) hpadget]

/-- A resolver with one instance (id 1) bound to abstract list 200 carrying
two level definitions: level 0 starting at 1 and level 1 starting at 5. -/
def two_level_resolver : NumberingResolver where
  num_instances := fun n => if n = 1 then some 200 else none
  abstract_nums := fun a =>
    if a = 200 then some [⟨0, 1, "decimal", none⟩, ⟨1, 5, "decimal", none⟩] else none
  overrides := fun _ => none
  counters := fun _ => none
  level_shifts := fun _ => none

/-- Concrete instantiation of `level_reset` at `L = 0` on
`two_level_resolver`: the level-1 counter is 0 after a level-0 call, and the
following level-1 call restarts at that level's start value 5. -/
theorem level_reset_witness :
    (((next_marker two_level_resolver 1 ((0 : Nat) : Int)).2.counters 200).getD []).getD
        (0 + 1) 0 = 0 ∧
    ((((next_marker (next_marker two_level_resolver 1 ((0 : Nat) : Int)).2 1
          (((0 : Nat) : Int) + 1)).2.counters 200).getD []).getD (0 + 1) 0) =
      (two_level_resolver.overrides (1, ((0 : Nat) : Int) + 1)).getD
        (LevelDef.mk 1 5 "decimal" none).start :=
  level_reset two_level_resolver 1 0 (by decide) 200
    [⟨0, 1, "decimal", none⟩, ⟨1, 5, "decimal", none⟩] ⟨1, 5, "decimal", none⟩
    (by decide) (by decide) (by decide) (by decide)

/-! ### Table grid builder (src/converter/table_grid.rs)

`CellStatus` is the four-variant cell state; a grid is a row-major
`List (List CellStatus)`.  A source cell carries its parsed `gridSpan` and
`vMerge` metadata plus an opaque body (the nested content handed to the
cell-renderer callback). -/

inductive CellStatus where
  | Occupied (content : String) (rowspan colspan : Nat)
  | MergedLeft
  | MergedUp
  | Empty
deriving Repr, DecidableEq

inductive VMergeType where
  | Restart
  | Continue
deriving Repr, DecidableEq

structure TableCellModel where
  grid_span : Option Nat
  v_merge : Option (Option VMergeType)
  body : String
deriving Repr, DecidableEq

inductive TableRowContent where
  | TableCell (cell : TableCellModel)
  | SDT
deriving Repr, DecidableEq

structure TableRowModel where
  cells : List TableRowContent
deriving Repr, DecidableEq

structure TableModel where
  rows : List TableRowModel
deriving Repr, DecidableEq

/-- Embeds `set_grid_cell`: grows the grid down to `row`, grows that row out
to `col` with `Empty`, then stores `status`. -/
def set_grid_cell (grid : List (List CellStatus)) (row col : Nat) (status : CellStatus) :
    List (List CellStatus) :=
  let grid :=
    if grid.length ≤ row then grid ++ List.replicate (row + 1 - grid.length) [] else grid
  let r := grid.getD row []
  let r :=
    if r.length ≤ col then r ++ List.replicate (col + 1 - r.length) CellStatus.Empty else r
  grid.set row (r.set col status)

/-- Embeds the `while master_col > 0` scan of `increment_rowspan`: walk left
from `col` through `MergedLeft` cells; on the first `Occupied` cell report it
as master iff its colspan covers `col`; anything else aborts.  The last
argument is the current `master_col`. -/
def find_left_master (row : List CellStatus) (col : Nat) : Nat → Option Nat
  | 0 => none
  | mc + 1 =>
    match row.getD mc CellStatus.Empty with
    | CellStatus.MergedLeft => find_left_master row col mc
    | CellStatus.Occupied _ _ colspan => if mc + colspan > col then some mc else none
    | _ => none

/-- Increments the rowspan of the `Occupied` cell at the given position
(no-op when the slot holds anything else) - the two `*rowspan += 1` sites of
`increment_rowspan`. -/
def bump_occupied (grid : List (List CellStatus)) (row col : Nat) :
    List (List CellStatus) :=
  match (grid.getD row []).getD col CellStatus.Empty with
  | CellStatus.Occupied content rowspan colspan =>
    grid.set row ((grid.getD row []).set col (CellStatus.Occupied content (rowspan + 1) colspan))
  | _ => grid

/-- The `loop` of `increment_rowspan`, walking upward from `target_row`:
out-of-bounds breaks; `Occupied` is bumped; `MergedUp` moves one row up
(breaking at row 0); `MergedLeft` resolves the horizontal master via
`find_left_master` and bumps it; `Empty` breaks. -/
def increment_rowspan_loop (grid : List (List CellStatus)) (col : Nat) :
    Nat → List (List CellStatus)
  | 0 =>
    if grid.length ≤ 0 ∨ (grid.getD 0 []).length ≤ col then grid
    else
      match (grid.getD 0 []).getD col CellStatus.Empty with
      | CellStatus.Occupied _ _ _ => bump_occupied grid 0 col
      | CellStatus.MergedUp => grid
      | CellStatus.MergedLeft =>
        match find_left_master (grid.getD 0 []) col col with
        | some mc => bump_occupied grid 0 mc
        | none => grid
      | CellStatus.Empty => grid
  | t + 1 =>
    if grid.length ≤ t + 1 ∨ (grid.getD (t + 1) []).length ≤ col then grid
    else
      match (grid.getD (t + 1) []).getD col CellStatus.Empty with
      | CellStatus.Occupied _ _ _ => bump_occupied grid (t + 1) col
      | CellStatus.MergedUp => increment_rowspan_loop grid col t
      | CellStatus.MergedLeft =>
        match find_left_master (grid.getD (t + 1) []) col col with
        | some mc => bump_occupied grid (t + 1) mc
        | none => grid
      | CellStatus.Empty => grid

/-- Embeds `increment_rowspan`: no-op on row 0, otherwise starts the upward
walk at `current_row - 1`. -/
def increment_rowspan (grid : List (List CellStatus)) (current_row col : Nat) :
    List (List CellStatus) :=
  match current_row with
  | 0 => grid
  | r + 1 => increment_rowspan_loop grid col r

/-- Counts the leading already-claimed (non-`Empty`) slots of a row suffix. -/
def skip_claimed : List CellStatus → Nat
  | [] => 0
  | CellStatus.Empty :: _ => 0
  | _ :: rest => skip_claimed rest + 1

/-- Embeds the column-cursor skip loop of `build_grid`
(`while col_idx < len && not Empty: col_idx += 1`): the cursor advances past
the claimed slots of the row suffix starting at `i`. -/
def advance_col (row : List CellStatus) (i : Nat) : Nat :=
  i + skip_claimed (row.drop i)

/-- The `is_v_merge_restart` test of `build_grid`: the `vMerge` element is
present with value `restart`. -/
def is_v_merge_restart (cell : TableCellModel) : Bool :=
  cell.v_merge == some (some VMergeType.Restart)

/-- The `is_v_merge_continue` test of `build_grid`: the `vMerge` element is
present and not a restart (so `continue` or valueless). -/
def is_v_merge_continue (cell : TableCellModel) : Bool :=
  cell.v_merge.isSome && !(is_v_merge_restart cell)

/-- Embeds the per-cell body of `build_grid`'s inner loop.  The state is the
grid together with the column cursor; `f` is the fallible cell-renderer
callback (`convert_cell`), which is only invoked on non-continuation cells. -/
def process_cell {ε : Type} (f : TableCellModel → Except ε String) (row_idx : Nat)
    (st : List (List CellStatus) × Nat) (c : TableRowContent) :
    Except ε (List (List CellStatus) × Nat) :=
  match c with
  | TableRowContent.SDT => Except.ok st
  | TableRowContent.TableCell cell =>
    let grid := st.1
    let col_idx := advance_col (grid.getD row_idx []) st.2
    let row0 := grid.getD row_idx []
    let grid :=
      if row0.length ≤ col_idx then
        grid.set row_idx (row0 ++ List.replicate (col_idx + 1 - row0.length) CellStatus.Empty)
      else grid
    let grid_span := cell.grid_span.getD 1
    if is_v_merge_continue cell then
      let grid := increment_rowspan grid row_idx col_idx
      let grid := (List.range grid_span).foldl
        (fun g i => set_grid_cell g row_idx (col_idx + i) CellStatus.MergedUp) grid
      Except.ok (grid, col_idx + grid_span)
    else
      match f cell with
      | Except.error e => Except.error e
      | Except.ok content =>
        let grid := set_grid_cell grid row_idx col_idx
          (CellStatus.Occupied content 1 grid_span)
        let grid := (List.range (grid_span - 1)).foldl
          (fun g i => set_grid_cell g row_idx (col_idx + 1 + i) CellStatus.MergedLeft) grid
        Except.ok (grid, col_idx + grid_span)

/-- Embeds one iteration of `build_grid`'s outer loop: push a fresh row when
the grid is short, then run the cells left to right with the cursor at 0. -/
def process_row {ε : Type} (f : TableCellModel → Except ε String) (row_idx : Nat)
    (grid : List (List CellStatus)) (cells : List TableRowContent) :
    Except ε (List (List CellStatus)) :=
  let grid := if grid.length ≤ row_idx then grid ++ [[]] else grid
  (cells.foldlM (process_cell f row_idx) (grid, 0)).map Prod.fst

/-- The outer row loop of `build_grid` with its `enumerate` counter. -/
def build_rows {ε : Type} (f : TableCellModel → Except ε String) :
    Nat → List (List CellStatus) → List TableRowModel → Except ε (List (List CellStatus))
  | _, grid, [] => Except.ok grid
  | row_idx, grid, row :: rest =>
    match process_row f row_idx grid row.cells with
    | Except.error e => Except.error e
    | Except.ok grid2 => build_rows f (row_idx + 1) grid2 rest

/-- Embeds `build_grid`. -/
def build_grid {ε : Type} (f : TableCellModel → Except ε String) (t : TableModel) :
    Except ε (List (List CellStatus)) :=
  build_rows f 0 [] t.rows

/-- The per-cell `push_str` body of `render_grid`'s inner loop. -/
def render_cell_push (html : String) (cell : CellStatus) : String :=
  match cell with
  | CellStatus.Occupied content rowspan colspan =>
    let attrs := ""
    let attrs := if rowspan > 1 then attrs ++ s!" rowspan=\"{rowspan}\"" else attrs
    let attrs := if colspan > 1 then attrs ++ s!" colspan=\"{colspan}\"" else attrs
    html ++ ("    <td" ++ attrs ++ ">" ++ content ++ "</td>\n")
  | CellStatus.MergedLeft => html
  | CellStatus.MergedUp => html
  | CellStatus.Empty => html ++ "    <td></td>\n"

/-- The per-row body of `render_grid`'s outer loop. -/
def render_row_push (html : String) (row : List CellStatus) : String :=
  (row.foldl render_cell_push (html ++ "  <tr>\n")) ++ "  </tr>\n"

/-- Embeds `render_grid`, the pure formatter, with the string accumulator
threaded exactly as the `push_str` sequence does. -/
def render_grid (grid : List (List CellStatus)) : String :=
  (grid.foldl render_row_push "<table>\n") ++ "</table>"

/-- Ordered concatenation of a list of fragments. -/
def concat_strings (l : List String) : String :=
  l.foldr (fun a b => a ++ b) ""

/-- Modelled from the spec: per-cell rendering - `Occupied` emits one cell
tag carrying a rowspan attribute only when rowspan > 1 and a colspan
attribute only when colspan > 1, `MergedLeft`/`MergedUp` emit nothing, and a
leftover `Empty` slot emits an empty cell instead of failing. -/
def render_cell_spec : CellStatus → String
  | CellStatus.Occupied content rowspan colspan =>
    "    <td" ++ ((if rowspan > 1 then s!" rowspan=\"{rowspan}\"" else "") ++
      (if colspan > 1 then s!" colspan=\"{colspan}\"" else "")) ++
      ">" ++ content ++ "</td>\n"
  | CellStatus.MergedLeft => ""
  | CellStatus.MergedUp => ""
  | CellStatus.Empty => "    <td></td>\n"

/-- Modelled from the spec: the whole-table rendering as the compositional
concatenation of row fragments, each the concatenation of its cell
fragments. -/
def render_grid_spec (grid : List (List CellStatus)) : String :=
  "<table>\n" ++
    concat_strings (grid.map
      (fun row => "  <tr>\n" ++ concat_strings (row.map render_cell_spec) ++ "  </tr>\n")) ++
    "</table>"

theorem concat_strings_cons (s : String) (l : List String) :
    concat_strings (s :: l) = s ++ concat_strings l := rfl

theorem render_cell_push_eq (html : String) (cell : CellStatus) :
    render_cell_push html cell = html ++ render_cell_spec cell := by
  cases cell with
  | Occupied content rowspan colspan =>
    by_cases hr : rowspan > 1 <;> by_cases hc : colspan > 1 <;>
      simp [render_cell_push, render_cell_spec, hr, hc, String.empty_append,
        String.append_empty]
  | MergedLeft => simp [render_cell_push, render_cell_spec, String.append_empty]
  | MergedUp => simp [render_cell_push, render_cell_spec, String.append_empty]
  | Empty => rfl

theorem foldl_render_cell (row : List CellStatus) :
    ∀ acc : String, row.foldl render_cell_push acc =
      acc ++ concat_strings (row.map render_cell_spec) := by
  induction row with
  | nil => intro acc; exact (String.append_empty acc).symm
  | cons c cs ih =>
    intro acc
    rw [List.foldl_cons, ih, render_cell_push_eq, List.map_cons, concat_strings_cons,
      String.append_assoc]

theorem foldl_render_row (grid : List (List CellStatus)) :
    ∀ acc : String, grid.foldl render_row_push acc =
      acc ++ concat_strings (grid.map
        (fun row => "  <tr>\n" ++ concat_strings (row.map render_cell_spec) ++ "  </tr>\n")) := by
  induction grid with
  | nil => intro acc; exact (String.append_empty acc).symm
  | cons row rows ih =>
    intro acc
    rw [List.foldl_cons, ih, List.map_cons, concat_strings_cons, render_row_push,
      foldl_render_cell]
    simp [String.append_assoc]

/-- Claim C8: `render_grid` is the total compositional formatter the spec
describes - on every grid it equals the concatenation of row fragments built
from `render_cell_spec`, where `Occupied` emits one cell tag with a rowspan
attribute only when rowspan > 1 and a colspan attribute only when
colspan > 1, `MergedLeft` and `MergedUp` emit nothing, and a leftover `Empty`
slot emits an empty cell instead of causing an error. -/
theorem render_grid_refines (grid : List (List CellStatus)) :
    render_grid grid = render_grid_spec grid := by
  rw [render_grid, render_grid_spec, foldl_render_row]

theorem process_cell_congr {ε : Type} (f g : TableCellModel → Except ε String)
    (hfg : ∀ c, is_v_merge_continue c = false → f c = g c) (row_idx : Nat)
    (st : List (List CellStatus) × Nat) (c : TableRowContent) :
    process_cell f row_idx st c = process_cell g row_idx st c := by
  cases c with
  | SDT => rfl
  | TableCell cell =>
    by_cases hc : is_v_merge_continue cell
    · simp only [process_cell, hc, if_true]
    · have hcf : is_v_merge_continue cell = false := by simpa using hc
      simp only [process_cell, hcf, Bool.false_eq_true, if_false]
      rw [hfg cell hcf]

theorem foldlM_process_congr {ε : Type} (f g : TableCellModel → Except ε String)
    (hfg : ∀ c, is_v_merge_continue c = false → f c = g c) (row_idx : Nat) :
    ∀ (cells : List TableRowContent) (st : List (List CellStatus) × Nat),
      cells.foldlM (process_cell f row_idx) st = cells.foldlM (process_cell g row_idx) st := by
  intro cells
  induction cells with
  | nil => intro st; rfl
  | cons c cs ih =>
    intro st
    rw [List.foldlM_cons, List.foldlM_cons, process_cell_congr f g hfg row_idx st c]
    cases process_cell g row_idx st c with
    | error e => rfl
    | ok st2 => exact ih st2

theorem build_rows_congr {ε : Type} (f g : TableCellModel → Except ε String)
    (hfg : ∀ c, is_v_merge_continue c = false → f c = g c) :
    ∀ (rows : List TableRowModel) (idx : Nat) (grid : List (List CellStatus)),
      build_rows f idx grid rows = build_rows g idx grid rows := by
  intro rows
  induction rows with
  | nil => intro idx grid; rfl
  | cons row rest ih =>
    intro idx grid
    simp only [build_rows, process_row]
    rw [foldlM_process_congr f g hfg idx row.cells]
    cases (row.cells.foldlM (process_cell g idx)
        ((if grid.length ≤ idx then grid ++ [[]] else grid), 0)) with
    | error e => rfl
    | ok st2 => exact ih (idx + 1) st2.1

/-- A cell with neither a span nor a vertical-merge element: a plain master
cell whose body is rendered. -/
def master_cell : TableCellModel := ⟨none, none, "master"⟩

/-- A vertical-merge continuation cell. -/
def cont_cell : TableCellModel := ⟨none, some (some VMergeType.Continue), ""⟩

/-- One master row followed by `k` continuation rows in a single column. -/
def chain_table (k : Nat) : TableModel :=
  ⟨⟨[TableRowContent.TableCell master_cell]⟩ ::
    List.replicate k ⟨[TableRowContent.TableCell cont_cell]⟩⟩

/-- A renderer that fails on every continuation cell and returns the body of
any other cell: conversion succeeding under it certifies the renderer is
never invoked on a continuation cell. -/
def chain_renderer : TableCellModel → Except Unit String := fun c =>
  if is_v_merge_continue c then Except.error () else Except.ok c.body

/-- The expected grid for `chain_table k`: one master cell with rowspan
`k + 1` above `k` rows absorbed as `MergedUp`. -/
def chain_grid (k : Nat) : List (List CellStatus) :=
  [CellStatus.Occupied "master" (k + 1) 1] :: List.replicate k [CellStatus.MergedUp]

theorem chain_loop_bump (j : Nat) :
    ∀ t, t ≤ j →
      increment_rowspan_loop
        (([CellStatus.Occupied "master" (j + 1) 1] ::
          List.replicate j [CellStatus.MergedUp]) ++ [[CellStatus.Empty]]) 0 t =
      ([CellStatus.Occupied "master" (j + 2) 1] ::
        List.replicate j [CellStatus.MergedUp]) ++ [[CellStatus.Empty]] := by
  intro t
  induction t with
  | zero =>
    intro _
    simp [increment_rowspan_loop, bump_occupied]
  | succ t ih =>
    intro ht
    have hget : ((([CellStatus.Occupied "master" (j + 1) 1] ::
        List.replicate j [CellStatus.MergedUp]) ++ [[CellStatus.Empty]]).getD (t + 1) []) =
        [CellStatus.MergedUp] := by
      rw [List.getD_append _ _ _ _ (by simp; omega)]
      show (List.replicate j [CellStatus.MergedUp]).getD t [] = _
      rw [List.getD_eq_getElem?_getD, List.getElem?_replicate, if_pos (by omega)]
      rfl
    have hb : ¬((([CellStatus.Occupied "master" (j + 1) 1] ::
        List.replicate j [CellStatus.MergedUp]) ++ [[CellStatus.Empty]]).length ≤ t + 1 ∨
        (((([CellStatus.Occupied "master" (j + 1) 1] ::
          List.replicate j [CellStatus.MergedUp]) ++ [[CellStatus.Empty]]).getD (t + 1)
            []).length ≤ 0)) := by
      rw [hget]
      simp
      omega
    rw [increment_rowspan_loop, if_neg hb, hget]
    exact ih (by omega)

theorem chain_process_row (j : Nat) :
    process_row chain_renderer (j + 1)
      ([CellStatus.Occupied "master" (j + 1) 1] :: List.replicate j [CellStatus.MergedUp])
      [TableRowContent.TableCell cont_cell] =
    Except.ok ([CellStatus.Occupied "master" (j + 2) 1] ::
      List.replicate (j + 1) [CellStatus.MergedUp]) := by
  have hif : (if ([CellStatus.Occupied "master" (j + 1) 1] ::
      List.replicate j [CellStatus.MergedUp]).length ≤ j + 1 then
      ([CellStatus.Occupied "master" (j + 1) 1] :: List.replicate j [CellStatus.MergedUp]) ++ [[]]
      else ([CellStatus.Occupied "master" (j + 1) 1] :: List.replicate j [CellStatus.MergedUp])) =
      (([CellStatus.Occupied "master" (j + 1) 1] :: List.replicate j [CellStatus.MergedUp]) ++
        [[]]) := by
    rw [if_pos (by simp)]
  have hget : ((([CellStatus.Occupied "master" (j + 1) 1] ::
      List.replicate j [CellStatus.MergedUp]) ++ [[]]).getD (j + 1) []) =
      ([] : List CellStatus) := by
    rw [List.getD_append_right _ _ _ _ (by simp)]
    simp
  have hadv : advance_col [] 0 = 0 := rfl
  have hcont : is_v_merge_continue cont_cell = true := rfl
  have hspan : cont_cell.grid_span.getD 1 = 1 := rfl
  have hr1 : List.range 1 = [0] := rfl
  have hsetcons : ∀ (a : List CellStatus) (as : List (List CellStatus)) (n : Nat)
      (b : List CellStatus), (a :: as).set (n + 1) b = a :: as.set n b :=
    fun _ _ _ _ => rfl
  have hinc : increment_rowspan
      ([CellStatus.Occupied "master" (j + 1) 1] :: List.replicate j [CellStatus.MergedUp] ++
        [[CellStatus.Empty]]) (j + 1) 0 =
      [CellStatus.Occupied "master" (j + 2) 1] :: List.replicate j [CellStatus.MergedUp] ++
        [[CellStatus.Empty]] :=
    chain_loop_bump j j (Nat.le_refl j)
  have hlen2 : ¬(([CellStatus.Occupied "master" (j + 2) 1] ::
      List.replicate j [CellStatus.MergedUp] ++ [[CellStatus.Empty]]).length ≤ j + 1) := by
    simp only [List.length_cons, List.length_append, List.length_replicate,
      List.length_singleton]
    omega
  have hget2 : (([CellStatus.Occupied "master" (j + 2) 1] ::
      List.replicate j [CellStatus.MergedUp] ++ [[CellStatus.Empty]]).getD (j + 1) []) =
      [CellStatus.Empty] := by
    show ((([CellStatus.Occupied "master" (j + 2) 1] ::
      List.replicate j [CellStatus.MergedUp]) ++ [[CellStatus.Empty]]).getD (j + 1) []) = _
    rw [List.getD_append_right _ _ _ _ (by simp)]
    simp
  have hlen3 : ¬([CellStatus.Empty] : List CellStatus).length ≤ 0 := by simp
  have hlen4 : ¬(([] : List CellStatus).length + 1 ≤ 0) := by simp
  simp only [process_row, process_cell, List.foldlM_cons, List.foldlM_nil, hif, hget, hadv,
    hcont, hspan, List.length_nil, le_refl, if_true, List.nil_append, Nat.sub_zero,
    Nat.zero_add, List.replicate_one, hr1, List.foldl_cons, List.foldl_nil, Nat.add_zero,
    hsetcons, List.set_append, List.length_replicate, List.length_cons, lt_self_iff_false,
    if_false, Nat.sub_self, List.set_cons_zero, hinc]
  simp only [set_grid_cell, hlen2, hget2, hlen3, hlen4, if_false, List.set_cons_zero,
    hsetcons, List.set_append, List.length_replicate, List.length_cons, lt_self_iff_false,
    Nat.sub_self]
  have hrep : ([CellStatus.Occupied "master" (j + 2) 1] ::
      List.replicate j [CellStatus.MergedUp]) ++ [[CellStatus.MergedUp]] =
      [CellStatus.Occupied "master" (j + 2) 1] ::
        List.replicate (j + 1) [CellStatus.MergedUp] := by
    rw [List.cons_append, ← List.replicate_succ']
  simp only [hrep]
  rfl

theorem chain_build_rows (m : Nat) :
    ∀ j, build_rows chain_renderer (j + 1)
        ([CellStatus.Occupied "master" (j + 1) 1] :: List.replicate j [CellStatus.MergedUp])
        (List.replicate m ⟨[TableRowContent.TableCell cont_cell]⟩) =
      Except.ok ([CellStatus.Occupied "master" (j + m + 1) 1] ::
        List.replicate (j + m) [CellStatus.MergedUp]) := by
  induction m with
  | zero => intro j; rfl
  | succ m ih =>
    intro j
    rw [List.replicate_succ]
    show (match process_row chain_renderer (j + 1)
        ([CellStatus.Occupied "master" (j + 1) 1] :: List.replicate j [CellStatus.MergedUp])
        [TableRowContent.TableCell cont_cell] with
      | Except.error e => Except.error e
      | Except.ok grid2 => build_rows chain_renderer (j + 1 + 1) grid2
          (List.replicate m ⟨[TableRowContent.TableCell cont_cell]⟩)) = _
    rw [chain_process_row j]
    show build_rows chain_renderer ((j + 1) + 1)
      ([CellStatus.Occupied "master" ((j + 1) + 1) 1] ::
        List.replicate (j + 1) [CellStatus.MergedUp])
      (List.replicate m ⟨[TableRowContent.TableCell cont_cell]⟩) = _
    rw [ih (j + 1)]
    have h1 : j + 1 + m = j + (m + 1) := by omega
    rw [h1]

/-- The first row of `chain_table`: the master cell renders into a singleton
occupied grid. -/
theorem chain_first_row :
    process_row chain_renderer 0 [] [TableRowContent.TableCell master_cell] =
      Except.ok [[CellStatus.Occupied "master" 1 1]] := rfl

/-- A table exercising the `MergedLeft` chain of `increment_rowspan`: row 0
holds one cell spanning two columns, row 1 holds a plain cell and then a
continuation whose column sits above the wide cell's `MergedLeft` slot. -/
def left_chain_table : TableModel :=
  ⟨[⟨[TableRowContent.TableCell ⟨some 2, none, "W"⟩]⟩,
    ⟨[TableRowContent.TableCell ⟨none, none, "B"⟩,
      TableRowContent.TableCell cont_cell]⟩]⟩

/-- Claim C7: vertical-merge continuation handling in `build_grid`.
First, the renderer is never invoked on a continuation cell: any two
renderers agreeing on non-continuation cells build identical grids.
Second, a chain of `k` continuation rows below a master leaves the master
`Occupied` with rowspan exactly `k + 1`, every column covered by each
continuation marked `MergedUp` in its row - even under a renderer that fails
on every continuation cell.  Third, a continuation over a `MergedLeft` slot
resolves the horizontal master through the chain and increments that
master's rowspan by exactly one. -/
theorem vmerge_continue_behaviour :
    (∀ (ε : Type) (f g : TableCellModel → Except ε String) (t : TableModel),
      (∀ c, is_v_merge_continue c = false → f c = g c) →
      build_grid f t = build_grid g t) ∧
    (∀ k : Nat, build_grid chain_renderer (chain_table k) = Except.ok (chain_grid k)) ∧
    build_grid chain_renderer left_chain_table =
      Except.ok [[CellStatus.Occupied "W" 2 2, CellStatus.MergedLeft],
        [CellStatus.Occupied "B" 1 1, CellStatus.MergedUp]] := by
  refine ⟨?_, ?_, ?_⟩
  · intro ε f g t hfg
    exact build_rows_congr f g hfg t.rows 0 []
  · intro k
    show build_rows chain_renderer 0 [] (_ :: List.replicate k _) = _
    show (match process_row chain_renderer 0 []
        [TableRowContent.TableCell master_cell] with
      | Except.error e => Except.error e
      | Except.ok grid2 => build_rows chain_renderer 1 grid2
          (List.replicate k ⟨[TableRowContent.TableCell cont_cell]⟩)) = _
    rw [chain_first_row]
    show build_rows chain_renderer (0 + 1)
      ([CellStatus.Occupied "master" (0 + 1) 1] ::
        List.replicate 0 [CellStatus.MergedUp]) _ = _
    rw [chain_build_rows k 0]
    rw [Nat.zero_add]
    rfl
  · rfl

/-- Concrete instantiation of `vmerge_continue_behaviour`: a renderer made to
fail on continuation cells builds the same grid as one that cannot fail, and
a three-deep continuation chain yields rowspan 4. -/
theorem vmerge_continue_behaviour_witness :
    build_grid (fun c => Except.ok c.body) (chain_table 2) =
      build_grid chain_renderer (chain_table 2) ∧
    build_grid chain_renderer (chain_table 3) = Except.ok (chain_grid 3) := by
  constructor
  · exact vmerge_continue_behaviour.1 Unit (fun c => Except.ok c.body) chain_renderer
      (chain_table 2) (fun c hc => by simp [chain_renderer, hc])
  · exact vmerge_continue_behaviour.2.1 3

/-! ### Paragraph segments (src/converter/paragraph.rs)

`FormattedSegment` carries the text plus the fixed flag set; rendering
options mirror the two `ConvertOptions` switches that
`segments_to_markdown` consults through the context. -/

structure FormattedSegment where
  text : String
  is_bold : Bool
  is_italic : Bool
  has_underline : Bool
  has_strike : Bool
  is_insertion : Bool
  is_deletion : Bool
  anchor : Option String
deriving Repr, DecidableEq

structure RenderOptions where
  html_underline : Bool
  html_strikethrough : Bool
deriving Repr, DecidableEq

/-- Embeds `ParagraphConverter::merge_segments`: fold the segments, merging
each one into the accumulator's last element exactly when all seven flags
compare equal, concatenating the texts in order. -/
def merge_segments (segments : List FormattedSegment) : List FormattedSegment :=
  segments.foldl
    (fun merged seg =>
      match merged.getLast? with
      | some last =>
        if last.is_bold == seg.is_bold && last.is_italic == seg.is_italic &&
            last.has_underline == seg.has_underline && last.has_strike == seg.has_strike &&
            last.is_insertion == seg.is_insertion && last.is_deletion == seg.is_deletion &&
            last.anchor == seg.anchor then
          merged.dropLast ++ [{ last with text := last.text ++ seg.text }]
        else merged ++ [seg]
      | none => merged ++ [seg])
    []

/-- Embeds `ParagraphConverter::apply_format_safely` over character lists
(the Rust byte slicing always lands on the boundaries of the whitespace
prefix/suffix it just computed, so the char-level view is exact; `Char`'s
`isWhitespace` stands in for Rust's Unicode `char::is_whitespace`). -/
def apply_format_safely (text openM closeM : String) : String :=
  if text.trim.isEmpty then text
  else
    let leading_ws := text.data.takeWhile (fun c => c.isWhitespace && c ≠ '\n')
    let trailing_ws := (text.data.reverse.takeWhile (fun c => c.isWhitespace && c ≠ '\n')).reverse
    let content := (text.data.drop leading_ws.length).take
      (text.data.length - leading_ws.length - trailing_ws.length)
    if content.contains '\n' then
      let fmtLine := fun (line : String) =>
        if line.trim.isEmpty then line
        else
          let line_leading := line.data.takeWhile Char.isWhitespace
          let line_trailing := (line.data.reverse.takeWhile Char.isWhitespace).reverse
          String.mk line_leading ++ openM ++ line.trim ++ closeM ++ String.mk line_trailing
      String.mk leading_ws ++
        String.intercalate "\n" (((String.mk content).splitOn "\n").map fmtLine) ++
        String.mk trailing_ws
    else
      String.mk leading_ws ++ openM ++ (String.mk content).trim ++ closeM ++
        String.mk trailing_ws

/-- Embeds `ParagraphConverter::segments_to_markdown`: per segment, render
the anchor tag if present, then wrap the text inner-to-outer with deletion
strike-through, insertion tag, underline (option-gated, suppressed inside
insertions), non-deletion strike (option-gated form), and the bold/italic
combination. -/
def segments_to_markdown (segments : List FormattedSegment) (opts : RenderOptions) : String :=
  segments.foldl
    (fun result seg =>
      let result :=
        match seg.anchor with
        | some anchor => result ++ s!"<a id=\"{anchor}\"></a>"
        | none => result
      let text := seg.text
      let text := if seg.is_deletion then apply_format_safely text "~~" "~~" else text
      let text := if seg.is_insertion then s!"<ins>{text}</ins>" else text
      let text :=
        if seg.has_underline && opts.html_underline && !seg.is_insertion then
          s!"<u>{text}</u>"
        else text
      let text :=
        if seg.has_strike && !seg.is_deletion then
          if opts.html_strikethrough then s!"<s>{text}</s>"
          else apply_format_safely text "~~" "~~"
        else text
      let text :=
        if seg.is_bold && seg.is_italic then s!"<strong><em>{text}</em></strong>"
        else if seg.is_bold then s!"<strong>{text}</strong>"
        else if seg.is_italic then s!"<em>{text}</em>"
        else text
      result ++ text)
    ""

/-- Claim C9: `merge_segments` merges two adjacent segments into one whose
text is the concatenation in order exactly when all seven flags compare
equal (and leaves them separate otherwise), and a segment with no flags set
renders through `segments_to_markdown` as its plain text under every option
choice. -/
theorem segment_merge_and_plain_render :
    (∀ s1 s2 : FormattedSegment,
      merge_segments [s1, s2] =
        if s1.is_bold == s2.is_bold && s1.is_italic == s2.is_italic &&
            s1.has_underline == s2.has_underline && s1.has_strike == s2.has_strike &&
            s1.is_insertion == s2.is_insertion && s1.is_deletion == s2.is_deletion &&
            s1.anchor == s2.anchor then
          [{ s1 with text := s1.text ++ s2.text }]
        else [s1, s2]) ∧
    (∀ (t : String) (opts : RenderOptions),
      segments_to_markdown [⟨t, false, false, false, false, false, false, none⟩] opts = t) := by
  constructor
  · intro s1 s2
    by_cases hC : (s1.is_bold == s2.is_bold && s1.is_italic == s2.is_italic &&
        s1.has_underline == s2.has_underline && s1.has_strike == s2.has_strike &&
        s1.is_insertion == s2.is_insertion && s1.is_deletion == s2.is_deletion &&
        s1.anchor == s2.anchor) = true
    · have hC2 := hC
      simp only [Bool.and_eq_true, beq_iff_eq] at hC2
      obtain ⟨⟨⟨⟨⟨⟨h1, h2⟩, h3⟩, h4⟩, h5⟩, h6⟩, h7⟩ := hC2
      simp [merge_segments, hC, h1, h2, h3, h4, h5, h6, h7]
    · have hCf : (s1.is_bold == s2.is_bold && s1.is_italic == s2.is_italic &&
          s1.has_underline == s2.has_underline && s1.has_strike == s2.has_strike &&
          s1.is_insertion == s2.is_insertion && s1.is_deletion == s2.is_deletion &&
          s1.anchor == s2.anchor) = false := by simpa using hC
      simp only [Bool.and_eq_true, beq_iff_eq] at hC
      simp [merge_segments, hCf]
      intro h1 h2 h3 h4 h5 h6
      by_contra h7
      exact hC ⟨⟨⟨⟨⟨⟨h1, h2⟩, h3⟩, h4⟩, h5⟩, h6⟩, h7⟩
  · intro t opts
    simp [segments_to_markdown, String.empty_append]

end Docx2Md
